import Mathlib

/-!
Shallow embedding of the hunyuan3d-run service (src/main.py,
src/src/api/convert_api.py, src/src/utils/local_2d_to_3d.py) used to check
the claims of the specification against the code.

Modelling conventions:
* Filesystem paths are lists of path segments; joining appends a segment and
  the operating system resolves "." and ".." segments at access time, which
  the model performs with `canon`.  The working directory of the process
  (os.getcwd()) is modelled as the segment list ["app"].
* The filesystem is a finite map from normalized paths to file sizes plus a
  list of created directories.  Writing, removing and existence checks
  canonicalize their argument through `canon`, as the OS does.
* File contents are abstracted to their size in bytes; request payloads are
  abstracted to (filename, size).
* External collaborators that are not part of the repository (the Hunyuan3D
  pipeline, save_obj / save_ply / point_cloud_to_mesh from hy3dshape, disk
  and GPU behaviour) enter the model as explicit environment parameters.
-/

/-- A filesystem path as a list of segments. -/
abbrev FsPath := List String

/-- Resolve "." and ".." segments the way the operating system canonicalizes
an absolute path rooted at the filesystem root. -/
def canon (p : FsPath) : FsPath :=
  p.foldl (fun acc s => if s = "." then acc else if s = ".." then acc.dropLast else acc.concat s) []

/-- A filesystem snapshot: existing files (normalized path, size in bytes)
and created directories. -/
structure FS where
  dirs : List FsPath
  files : List (FsPath × Nat)
deriving DecidableEq, Repr

/-- The empty filesystem. -/
def FS.empty : FS := ⟨[], []⟩

/-- os.makedirs(p, exist_ok=True). -/
def FS.mkdir (fs : FS) (p : FsPath) : FS :=
  { fs with dirs := canon p :: fs.dirs }

/-- Write (create or overwrite) the file at p with sz bytes. -/
def FS.write (fs : FS) (p : FsPath) (sz : Nat) : FS :=
  { fs with files := (canon p, sz) :: fs.files.filter (fun e => decide (e.1 ≠ canon p)) }

/-- os.remove(p); removing an absent file is a no-op in the model. -/
def FS.remove (fs : FS) (p : FsPath) : FS :=
  { fs with files := fs.files.filter (fun e => decide (e.1 ≠ canon p)) }

/-- os.path.exists(p) restricted to regular files. -/
def FS.hasFile (fs : FS) (p : FsPath) : Bool :=
  fs.files.any (fun e => decide (e.1 = canon p))

/-- Size in bytes of the file at p (0 when absent). -/
def FS.sizeAt (fs : FS) (p : FsPath) : Nat :=
  ((fs.files.find? (fun e => decide (e.1 = canon p))).map (fun e => e.2)).getD 0

/-- shutil.move(src, dst): dst receives the content of src and src is gone.
The caller (upload_jewelry) only invokes it when src and dst differ. -/
def FS.move (fs : FS) (src dst : FsPath) : FS :=
  (fs.write dst (fs.sizeAt src)).remove src

/-- One uploaded file of a multipart request: client-supplied filename and
payload size. -/
structure UpFile where
  filename : String
  size : Nat
deriving DecidableEq, Repr

/-- An incoming multipart request: request.files as a MultiDict from field
name to the files sent under that field. -/
structure Request where
  files : List (String × List UpFile)
deriving DecidableEq, Repr

/-- request.files.getlist(field). -/
def Request.getlist (rq : Request) (field : String) : List UpFile :=
  (rq.files.lookup field).getD []

/-- os.getcwd() of the running service. -/
def cwd : FsPath := ["app"]

/-- output_root = os.path.join(os.getcwd(), "output")  (main.py line 22). -/
def outputRoot : FsPath := cwd ++ ["output"]

/-- app.static_folder. -/
def staticFolder : FsPath := cwd ++ ["static"]

/-- upload_folder = os.path.join(app.static_folder, "uploads")  (main.py line 42). -/
def uploadFolder : FsPath := staticFolder ++ ["uploads"]

/-- save_path = os.path.join(upload_folder, img.filename)  (main.py line 47):
the save path is shared among all requests and never depends on the job id. -/
def uploadSavePath (img : UpFile) : FsPath := uploadFolder ++ [img.filename]

/-- Outcome of the conversion attempt performed inline by upload_jewelry
(import of Local2DTo3DConverter, its constructor and converter.convert,
main.py lines 56-59): either a returned model path together with the files
the engine wrote, or a raised exception carrying a message. -/
inductive ConvOutcome where
  | ok (modelPath : FsPath) (written : List (FsPath × Nat))
  | err (msg : String)

/-- The POST /upload_jewelry handler (main.py lines 34-73).  jobId stands for
the generated uuid4 and conv for the behaviour of the conversion attempt.
Returns ((http status, JSON body as field/value pairs), filesystem). -/
def upload_jewelry (rq : Request) (jobId : String) (conv : ConvOutcome) (fs : FS) :
    (Nat × List (String × String)) × FS :=
  if rq.getlist "images" = [] then ((400, [("error", "No images uploaded")]), fs)
  else
    let images := rq.getlist "images"
    let fs := fs.mkdir uploadFolder
    let fs := images.foldl (fun a img => a.write (uploadSavePath img) img.size) fs
    let jobOutputDir := outputRoot ++ [jobId]
    let fs := fs.mkdir jobOutputDir
    match conv with
    | .err msg => ((500, [("error", msg)]), fs)
    | .ok p written =>
      let fs := written.foldl (fun a pr => a.write pr.1 pr.2) fs
      let modelFilename := p.getLastD ""
      let finalPath := jobOutputDir ++ [modelFilename]
      let fs := if canon p ≠ canon finalPath then fs.move p finalPath else fs
      ((200, [("model_url", "/output/" ++ jobId ++ "/" ++ modelFilename)]), fs)

/-- The GET /output/(job_id)/(filename) handler (main.py lines 76-83).
The existence check uses the OS-resolved path; when it passes, Flask's
send_from_directory refuses a ".." filename component but performs no check
on the directory argument built from job_id.  Returns the http status and
the canonical path of the file that gets streamed, if any. -/
def serve_output_model (jobId filename : String) (fs : FS) : Nat × Option FsPath :=
  let jobOutputDir := outputRoot ++ [jobId]
  let filePath := jobOutputDir ++ [filename]
  if fs.hasFile filePath then
    if filename = ".." then (404, none) else (200, some (canon filePath))
  else (404, none)

/-- dir is an ancestor (or equal) directory of path p: p starts with dir. -/
def dirContains (dir p : FsPath) : Bool := decide (p.take dir.length = dir)

/-- s is an ordinary path segment, not one of the special entries. -/
def isNormalSeg (s : String) : Bool := decide (s ≠ "." ∧ s ≠ "..")

/-- output directory of the blueprint endpoints (convert_api.py line 74). -/
def apiOutputDir : FsPath := cwd ++ ["output"]

/-- Behaviour of converter.convert(temp_path) inside the /api/convert
endpoint (convert_api.py line 94): it can raise, return None, or return a
mesh object. -/
inductive MeshOutcome where
  | raises (msg : String)
  | noneMesh
  | okMesh

/-- Environment of the /api/convert endpoint: whether load_converter
succeeded, what converter.convert does, and which of the three
mesh.export(...) calls succeed (giving the bytes written) or raise. -/
structure ApiEnv where
  converterLoaded : Bool
  meshOutcome : MeshOutcome
  exportResult : String → Option Nat

/-- The per-format export loop of /api/convert (convert_api.py lines
101-121): accumulates the filesystem, the generated (format, url) pairs and
the primary model url. -/
def exportLoop (env : ApiEnv) (modelId : String) (fs : FS) :
    FS × List (String × String) × Option String :=
  ["obj", "stl", "ply"].foldl (fun acc fmt =>
    match env.exportResult fmt with
    | some n =>
        let url := "/output/" ++ modelId ++ "." ++ fmt
        let fs1 := acc.1.write (apiOutputDir ++ [modelId ++ "." ++ fmt]) n
        let prim := if fmt = "obj" ∨ acc.2.2 = none then some url else acc.2.2
        (fs1, acc.2.1 ++ [(fmt, url)], prim)
    | none => acc) (fs, [], none)

/-- The POST /api/convert handler (convert_api.py lines 54-153).  modelId
stands for the generated uuid4 and tempPath for the NamedTemporaryFile path.
The nested formats dictionary of the JSON response is flattened into
"formats." ++ fmt fields. -/
def convert_2d_to_3d (rq : Request) (modelId : String) (tempPath : FsPath) (env : ApiEnv)
    (fs : FS) : (Nat × List (String × String)) × FS :=
  if rq.files = [] ∨ rq.getlist "images" = [] then
    ((400, [("error", "Missing images in request")]), fs)
  else
    let images := rq.getlist "images"
    if images = [] then ((400, [("error", "No images provided")]), fs)
    else
      let fs := fs.mkdir apiOutputDir
      let fs := fs.write tempPath (images.headD ⟨"", 0⟩).size
      if env.converterLoaded = false then
        ((503, [("error", "3D model conversion is not available: model is not loaded.")]),
          fs.remove tempPath)
      else
        match env.meshOutcome with
        | .raises msg =>
            let fs := fs.remove tempPath
            let fs := fs.remove (apiOutputDir ++ [modelId ++ ".obj"])
            let fs := fs.remove (apiOutputDir ++ [modelId ++ ".stl"])
            let fs := fs.remove (apiOutputDir ++ [modelId ++ ".ply"])
            ((500, [("error", "Failed to generate 3D model"), ("details", msg)]), fs)
        | .noneMesh => ((503, [("error", "Conversion failed.")]), fs.remove tempPath)
        | .okMesh =>
            let r := exportLoop env modelId fs
            if r.2.1 = [] then
              ((500, [("error", "Failed to generate any 3D model formats")]), r.1.remove tempPath)
            else
              ((200, [("model_url", (r.2.2).getD "")] ++
                 (r.2.1).map (fun fu => ("formats." ++ fu.1, fu.2)) ++
                 [("model_id", modelId)]), r.1.remove tempPath)

/-- Character-level scan: some "/" is preceded by a blank or a newline. -/
def absMarker : List Char → Bool
  | [] => false
  | [_] => false
  | a :: b :: rest => ((a = ' ' || a = '\n') && b = '/') || absMarker (b :: rest)

/-- The message mentions an absolute filesystem path: it has a word starting
with "/", either at the very beginning or after a blank or newline. -/
def containsAbsPath (s : String) : Bool :=
  (s.data.headD ' ' = '/') || absMarker s.data

/-- A concrete one-file request used by witnesses and counterexamples. -/
def rqOne : Request := ⟨[("images", [⟨"ring.png", 4⟩])]⟩

/-- A request carrying no files at all. -/
def rqEmpty : Request := ⟨[]⟩

/-- A filesystem holding a finished model for job-1. -/
def fsC3 : FS := FS.empty.write (outputRoot ++ ["job-1"] ++ ["model.obj"]) 10

/-- A filesystem holding a file right next to the output root: the target a
traversal through job_id = ".." reaches. -/
def fsSecret : FS := FS.empty.write ["app", "secret.txt"] 7

/-- The message of the ImportError raised at src/src/utils/local_2d_to_3d.py
line 39 when the Hunyuan3D_2_1 folder is absent; it embeds two absolute
filesystem paths and the import runs inside the try block of
upload_jewelry (main.py line 56), so str(e) of this exception is returned
to the client verbatim. -/
def leakMsg : String :=
  "Hunyuan3D_2_1 folder not found. Searched:\n- /app/Hunyuan3D_2_1\n- /app/Hunyuan3D_2_1"

/-- Modelled from the spec: the job lifecycle states of the asynchronous
job execution subsystem described in section 3 of the specification.  No
job registry, worker or status endpoint exists anywhere under src/, so this
component is modelled from the specification text alone. -/
inductive JobStatus where
  | queued
  | running
  | finished
  | failed
deriving DecidableEq, Repr

/-- Position of a status in the order queued < running < {finished, failed}. -/
def JobStatus.rank : JobStatus → Nat
  | .queued => 0
  | .running => 1
  | .finished => 2
  | .failed => 2

/-- finished and failed are the terminal states. -/
def JobStatus.isTerminal : JobStatus → Bool
  | .finished => true
  | .failed => true
  | _ => false

/-- Modelled from the spec: the transitions of the job state machine —
queued to running when the Worker starts, running to finished on engine
success, running to failed on engine failure; the registry update operation
rejects every other transition. -/
def allowedTransition : JobStatus → JobStatus → Bool
  | .queued, .running => true
  | .running, .finished => true
  | .running, .failed => true
  | _, _ => false

/-- A status t is observable after s when a chain of allowed transitions
leads from s to t; repeated polling of one job observes such a chain. -/
def Reachable : JobStatus → JobStatus → Prop :=
  Relation.ReflTransGen (fun a b => allowedTransition a b = true)

/-- Modelled from the spec: a Job record of the Job Registry (section 3 of
the specification); artifactPath, inputTempDir and outputDir are the
internal filesystem fields that must never reach a client. -/
structure Job where
  status : JobStatus
  progress : Nat
  artifactPath : FsPath
  inputTempDir : FsPath
  outputDir : FsPath
  error : Option String
deriving DecidableEq, Repr

/-- The read-only projection returned by the Status Endpoint. -/
structure StatusProjection where
  job_id : String
  status : JobStatus
  progress : Nat
  model_url : Option String
  error : Option String
deriving DecidableEq, Repr

/-- Modelled from the spec: the projection of a job record served by the
Status Endpoint — model_url is a server-constructed url derived from the
job id, present only when the job is finished; error is present only when
the job is failed; no internal filesystem path is included. -/
def statusProjection (jid : String) (j : Job) : StatusProjection :=
  { job_id := jid
    status := j.status
    progress := j.progress
    model_url := if j.status = .finished then some ("/output/" ++ jid ++ "/generated_model.obj") else none
    error := if j.status = .failed then j.error else none }

/-- Modelled from the spec: GET /status/(job_id) — 404 for an unknown id,
otherwise the read-only projection of the registry record. -/
def statusEndpoint (reg : List (String × Job)) (jid : String) :
    Nat × Option StatusProjection :=
  match reg.lookup jid with
  | none => (404, none)
  | some j => (200, some (statusProjection jid j))

/-- An exact, unnormalized fraction num / den.  Every value built by the
model keeps den positive, and all operations preserve that; arithmetic is
plain Int arithmetic, with no gcd normalization, so the kernel can evaluate
it.  Two Frac values are compared numerically only through blt / isZero /
isPos, never through structural equality. -/
structure Frac where
  num : Int
  den : Int
deriving DecidableEq, Repr

/-- The integer n as a fraction. -/
def Frac.ofInt (n : Int) : Frac := ⟨n, 1⟩

/-- Exact addition. -/
def Frac.add (a b : Frac) : Frac := ⟨a.num * b.den + b.num * a.den, a.den * b.den⟩

/-- Exact negation. -/
def Frac.neg (a : Frac) : Frac := ⟨-a.num, a.den⟩

/-- Exact multiplication. -/
def Frac.mul (a b : Frac) : Frac := ⟨a.num * b.num, a.den * b.den⟩

/-- Exact division by a nonzero fraction, keeping the denominator positive. -/
def Frac.div (a b : Frac) : Frac :=
  if b.num < 0 then ⟨-(a.num * b.den), a.den * (-b.num)⟩ else ⟨a.num * b.den, a.den * b.num⟩

/-- Numeric strict comparison (denominators are positive by construction). -/
def Frac.blt (a b : Frac) : Bool := decide (a.num * b.den < b.num * a.den)

/-- The fraction is numerically zero. -/
def Frac.isZero (a : Frac) : Bool := decide (a.num = 0)

/-- The fraction is numerically positive (denominator positive). -/
def Frac.isPos (a : Frac) : Bool := decide (0 < a.num)

/-- The fraction is numerically negative (denominator positive). -/
def Frac.isNeg (a : Frac) : Bool := decide (a.num < 0)

/-- A numpy floating point value modelled with an exact fractional magnitude
plus the special values inf, -inf and nan.  Rounding and overflow of finite
results are not modelled; division by zero and arithmetic on the special
values follow IEEE-754, as numpy's do. -/
inductive FVal where
  | fin (q : Frac)
  | pinf
  | ninf
  | nan
deriving DecidableEq, Repr

/-- The integer n as a float value. -/
def FVal.ofInt (n : Int) : FVal := .fin (Frac.ofInt n)

/-- np.isnan. -/
def FVal.isNan : FVal → Bool
  | .nan => true
  | _ => false

/-- np.isinf. -/
def FVal.isInf : FVal → Bool
  | .pinf => true
  | .ninf => true
  | _ => false

/-- np.isfinite. -/
def FVal.isFinite : FVal → Bool
  | .fin _ => true
  | _ => false

/-- The value is finite and numerically zero. -/
def FVal.isZeroF : FVal → Bool
  | .fin q => q.isZero
  | _ => false

/-- IEEE addition. -/
def FVal.add : FVal → FVal → FVal
  | .nan, _ => .nan
  | _, .nan => .nan
  | .fin a, .fin b => .fin (a.add b)
  | .pinf, .ninf => .nan
  | .ninf, .pinf => .nan
  | .pinf, _ => .pinf
  | _, .pinf => .pinf
  | .ninf, _ => .ninf
  | _, .ninf => .ninf

/-- IEEE negation. -/
def FVal.neg : FVal → FVal
  | .fin a => .fin a.neg
  | .pinf => .ninf
  | .ninf => .pinf
  | .nan => .nan

/-- IEEE subtraction. -/
def FVal.sub (a b : FVal) : FVal := a.add b.neg

/-- IEEE multiplication. -/
def FVal.mul : FVal → FVal → FVal
  | .nan, _ => .nan
  | _, .nan => .nan
  | .fin a, .fin b => .fin (a.mul b)
  | .pinf, .fin b => if b.isZero then .nan else if b.isPos then .pinf else .ninf
  | .fin a, .pinf => if a.isZero then .nan else if a.isPos then .pinf else .ninf
  | .ninf, .fin b => if b.isZero then .nan else if b.isPos then .ninf else .pinf
  | .fin a, .ninf => if a.isZero then .nan else if a.isPos then .ninf else .pinf
  | .pinf, .pinf => .pinf
  | .pinf, .ninf => .ninf
  | .ninf, .pinf => .ninf
  | .ninf, .ninf => .pinf

/-- IEEE division; finite / 0 is the signed infinity (0 / 0 is nan), which
is what numpy scalars produce with a warning. -/
def FVal.div : FVal → FVal → FVal
  | .nan, _ => .nan
  | _, .nan => .nan
  | .fin a, .fin b =>
      if b.isZero then (if a.isZero then .nan else if a.isPos then .pinf else .ninf)
      else .fin (a.div b)
  | .fin _, .pinf => .fin (Frac.ofInt 0)
  | .fin _, .ninf => .fin (Frac.ofInt 0)
  | .pinf, .fin b => if b.isNeg then .ninf else .pinf
  | .ninf, .fin b => if b.isNeg then .pinf else .ninf
  | .pinf, .pinf => .nan
  | .pinf, .ninf => .nan
  | .ninf, .pinf => .nan
  | .ninf, .ninf => .nan

/-- IEEE strict comparison; nan is incomparable. -/
def FVal.blt : FVal → FVal → Bool
  | .nan, _ => false
  | _, .nan => false
  | .fin a, .fin b => a.blt b
  | .fin _, .pinf => true
  | .fin _, .ninf => false
  | .pinf, _ => false
  | .ninf, .ninf => false
  | .ninf, _ => true

/-- Pairwise maximum with nan propagation, as np.max uses. -/
def FVal.fmax (a b : FVal) : FVal :=
  if a.isNan || b.isNan then .nan else if a.blt b then b else a

/-- Pairwise minimum with nan propagation, as np.min uses. -/
def FVal.fmin (a b : FVal) : FVal :=
  if a.isNan || b.isNan then .nan else if b.blt a then b else a

/-- np.max over a 1-d array (the call sites never pass an empty array). -/
def vmax : List FVal → FVal
  | [] => .nan
  | x :: xs => xs.foldl FVal.fmax x

/-- np.min over a 1-d array. -/
def vmin : List FVal → FVal
  | [] => .nan
  | x :: xs => xs.foldl FVal.fmin x

/-- Sum of a 1-d array. -/
def vsum (l : List FVal) : FVal := l.foldl FVal.add (FVal.ofInt 0)

/-- np.mean over a 1-d array. -/
def vmean (l : List FVal) : FVal := (vsum l).div (FVal.ofInt (l.length : Int))

/-- Column i of a (k,3) vertex array; rows have exactly 3 entries at the
call sites, so the default is never reached there. -/
def colVals (vs : List (List FVal)) (i : Nat) : List FVal :=
  vs.map (fun r => r.getD i (FVal.ofInt 0))

/-- A columnwise (axis=0) reduction of a (k,3) array. -/
def colwise (g : List FVal → FVal) (vs : List (List FVal)) : List FVal :=
  (List.range 3).map (fun i => g (colVals vs i))

/-- vertex_range = np.max(vertices, axis=0) - np.min(vertices, axis=0)
(local_2d_to_3d.py line 220). -/
def rangeOf (vs : List (List FVal)) : List FVal :=
  List.zipWith FVal.sub (colwise vmax vs) (colwise vmin vs)

/-- max_range = np.max(vertex_range)  (line 221). -/
def maxRangeOf (vs : List (List FVal)) : FVal := vmax (rangeOf vs)

/-- The rescaling step of ensure_valid_mesh (lines 223-226): when the
coordinate range is above 10.0 or below 0.1, every vertex is multiplied by
scale_factor = 2.0 / max_range. -/
def scaleVerts (vs : List (List FVal)) : List (List FVal) :=
  if (FVal.ofInt 10).blt (maxRangeOf vs) || (maxRangeOf vs).blt (.fin ⟨1, 10⟩) then
    vs.map (fun r => r.map (fun e => e.mul ((FVal.ofInt 2).div (maxRangeOf vs))))
  else vs

/-- The centering step of ensure_valid_mesh (lines 229-230): the columnwise
mean is subtracted from every row. -/
def centerVerts (vs : List (List FVal)) : List (List FVal) :=
  vs.map (fun r => List.zipWith FVal.sub r (colwise vmean vs))

deriving instance DecidableEq for Except

/-- A raised Python exception, as far as the claims distinguish them. -/
inductive PyErr where
  | valueError (msg : String)
  | indexError
deriving DecidableEq, Repr

/-- str(e) of the exception. -/
def PyErr.msg : PyErr → String
  | .valueError m => m
  | .indexError => "index out of bounds"

/-- Normalize an abstract outlier mask to length n (numpy boolean masks
always match the array length; the abstract mask parameter is padded or
truncated to n). -/
def padMask (ms : List Bool) (n : Nat) : List Bool :=
  (ms ++ List.replicate n false).take n

/-- vertices[mask] boolean indexing. -/
def applyMask {α : Type} (m : List Bool) (xs : List α) : List α :=
  (xs.zip m).filterMap (fun rb => if rb.2 then some rb.1 else none)

/-- Helper of vertexMapping carrying the running count of kept vertices. -/
def vmAux (c : Int) : List Bool → List Int
  | [] => []
  | b :: ms => (if b then c else -1) :: vmAux (if b then c + 1 else c) ms

/-- vertex_mapping = np.full(n, -1); vertex_mapping[final_mask] =
np.arange(kept)  (local_2d_to_3d.py lines 150-151). -/
def vertexMapping (m : List Bool) : List Int := vmAux 0 m

/-- numpy integer indexing into a 1-d int array: negative indices wrap
around once; indices out of [-n, n) raise IndexError. -/
def npIndex (v : List Int) (i : Int) : Except PyErr Int :=
  if 0 ≤ i ∧ i < (v.length : Int) then .ok (v.getD i.toNat 0)
  else if -(v.length : Int) ≤ i ∧ i < 0 then .ok (v.getD (i + v.length).toNat 0)
  else .error .indexError

/-- The face-remapping loop of clean_mesh_data (lines 153-158): each face
is mapped through vertex_mapping and kept only when all mapped entries are
nonnegative. -/
def remapFaces (mapping : List Int) : List (List Int) → Except PyErr (List (List Int))
  | [] => .ok []
  | face :: rest =>
    match face.mapM (npIndex mapping) with
    | .error e => .error e
    | .ok mapped =>
      match remapFaces mapping rest with
      | .error e => .error e
      | .ok tail =>
        if mapped.all (fun i => decide (0 ≤ i)) then .ok (mapped :: tail) else .ok tail

/-- Step 1 of clean_mesh_data (lines 108-112): when any entry is nan or
inf, drop every row containing one. -/
def dropInvalidRows (vs : List (List FVal)) : List (List FVal) :=
  if vs.any (fun r => r.any (fun e => e.isNan || e.isInf))
  then vs.filter (fun r => !(r.any (fun e => e.isNan || e.isInf))) else vs

/-- Step 2 of clean_mesh_data (lines 114-119): drop every face referencing
an index above len(vertices) - 1. -/
def dropOverflowFaces (n : Nat) : Option (List (List Int)) → Option (List (List Int))
  | none => none
  | some fs => some (fs.filter (fun face => face.all (fun i => decide (i ≤ (n : Int) - 1))))

/-- clean_mesh_data (local_2d_to_3d.py lines 104-166).  The aggressive
outlier mask of lines 122-141 is computed from float64 norms, percentiles
and a median; that numeric computation is taken as the abstract parameter
mask (floating point percentile arithmetic is not shallow-embedded), while
every structural step of the function - nan/inf row filtering, face
filtering against the vertex count, boolean-mask vertex removal and face
remapping through vertex_mapping - is embedded directly. -/
def cleanMeshData (mask : List (List FVal) → List Bool) (vertices0 : List (List FVal))
    (faces0 : Option (List (List Int))) :
    Except PyErr (List (List FVal) × Option (List (List Int))) :=
  let vertices := dropInvalidRows vertices0
  let faces := dropOverflowFaces vertices.length faces0
  if 500 < vertices.length then
    let m := padMask (mask vertices) vertices.length
    if m.any (fun b => !b) then
      let newVerts := applyMask m vertices
      match faces with
      | none => .ok (newVerts, none)
      | some fs =>
        match remapFaces (vertexMapping m) fs with
        | .error e => .error e
        | .ok remapped => .ok (newVerts, if remapped.length = 0 then none else some remapped)
    else .ok (vertices, faces)
  else .ok (vertices, faces)

/-- Quad-to-triangle splitting of ensure_valid_mesh (lines 198-204). -/
def triangulateQuads (fs : List (List Int)) : List (List Int) :=
  fs.flatMap (fun face =>
    [[face.getD 0 0, face.getD 1 0, face.getD 2 0],
     [face.getD 0 0, face.getD 2 0, face.getD 3 0]])

/-- The face validation of ensure_valid_mesh (lines 189-217): the int32
cast is the identity in the model, quads are triangulated, and faces with
an entry above the highest vertex index are dropped; when nothing remains
the faces become None. -/
def fixFaces (n : Nat) : Option (List (List Int)) → Option (List (List Int))
  | none => none
  | some fs =>
    if 0 < fs.length then
      let fs1 := if (fs.headD []).length = 4 then triangulateQuads fs else fs
      if fs1.any (fun face => face.any (fun i => decide ((n : Int) - 1 < i))) then
        let fs2 := fs1.filter (fun face => face.all (fun i => decide (i ≤ (n : Int) - 1)))
        if fs2.length = 0 then none else some fs2
      else some fs1
    else some fs

/-- vertices[:, :3] when more than 3 columns are present (lines 183-184). -/
def evmTrunc (vs : List (List FVal)) : List (List FVal) :=
  if 3 < (vs.headD []).length then vs.map (fun r => r.take 3) else vs

/-- ensure_valid_mesh (local_2d_to_3d.py lines 169-233): cleaning, the
emptiness and width guards raising ValueError, column truncation, the
float32 cast (identity in the model), face validation, rescaling and
centering. -/
def ensureValidMesh (mask : List (List FVal) → List Bool) (vertices : List (List FVal))
    (faces : Option (List (List Int))) :
    Except PyErr (List (List FVal) × Option (List (List Int))) :=
  match cleanMeshData mask vertices faces with
  | .error e => .error e
  | .ok (v, f) =>
    if v.length = 0 then .error (.valueError "No valid vertices remaining after cleaning")
    else if (v.headD []).length < 3 then
      .error (.valueError "Vertices must have at least 3 coordinates")
    else
      .ok (centerVerts (scaleVerts (evmTrunc v)), fixFaces (evmTrunc v).length f)

/-- The mask argument used by concrete examples (never consulted there). -/
def mask0 : List (List FVal) → List Bool := fun _ => []

/-- A concrete well-behaved vertex array used by witnesses. -/
def vW10 : List (List FVal) :=
  [[FVal.ofInt 0, FVal.ofInt 0, FVal.ofInt 0], [FVal.ofInt 1, FVal.ofInt 1, FVal.ofInt 1]]

/-- Environment of the Conversion Engine Local2DTo3DConverter: the pieces
living outside this repository (pipeline loading, image preprocessing, the
diffusion pipeline producing the raw point cloud, point_cloud_to_mesh,
save_obj and save_ply from hy3dshape, the byte counts they write, and the
float64 outlier-mask computation of clean_mesh_data) are explicit
parameters. -/
structure EngineEnv where
  pipelineLoaded : Bool
  preprocess : Except String Unit
  pointCloud : Except String (List (List FVal))
  meshFromCloud : Except String (List (List FVal) × List (List Int))
  objSave : Except String Nat
  plySave : Except String Nat
  stlWrite : Option Nat
  outlierMask : List (List FVal) → List Bool

/-- _generate_3d_mesh, tail part (local_2d_to_3d.py lines 763-787): the
extracted point cloud is shape-checked and cleaned through
ensure_valid_mesh; every failure is wrapped as "3D generation failed: ...". -/
def generate3dMesh (env : EngineEnv) : Except String (List (List FVal)) :=
  match env.pointCloud with
  | .error e => .error ("3D generation failed: " ++ e)
  | .ok pc =>
    if 3 ≤ (pc.headD []).length then
      match ensureValidMesh env.outlierMask pc none with
      | .ok (v, _) => .ok v
      | .error e => .error ("3D generation failed: " ++ e.msg)
    else .error ("3D generation failed: Invalid point cloud shape")

/-- _save_mesh_outputs (local_2d_to_3d.py lines 789-837): ensure_valid_mesh
on the mesh data, point_cloud_to_mesh when more than 100 faceless vertices
(its failure only logged), save_obj for the primary OBJ, save_ply, a
best-effort STL when faces exist, every raised failure wrapped as
"Failed to save mesh: ...". -/
def save_mesh_outputs (env : EngineEnv) (meshData : List (List FVal)) (dir : FsPath)
    (fs : FS) : Except String (FsPath × FS) :=
  let fs0 := fs.mkdir dir
  match ensureValidMesh env.outlierMask meshData none with
  | .error e => .error ("Failed to save mesh: " ++ e.msg)
  | .ok (vertices, faces) =>
    let vf := if faces = none ∧ 100 < vertices.length then
        match env.meshFromCloud with
        | .ok (v2, f2) => (v2, some f2)
        | .error _ => (vertices, none)
      else (vertices, faces)
    match env.objSave with
    | .error e => .error ("Failed to save mesh: " ++ e)
    | .ok n1 =>
      let fs1 := fs0.write (dir ++ ["generated_model.obj"]) n1
      match env.plySave with
      | .error e => .error ("Failed to save mesh: " ++ e)
      | .ok n2 =>
        let fs2 := fs1.write (dir ++ ["generated_model.ply"]) n2
        let fs3 := match vf.2 with
          | some fcs =>
            if 0 < fcs.length then
              match env.stlWrite with
              | some n3 => fs2.write (dir ++ ["generated_model.stl"]) n3
              | none => fs2
            else fs2
          | none => fs2
        .ok (dir ++ ["generated_model.obj"], fs3)

/-- Local2DTo3DConverter.convert (local_2d_to_3d.py lines 942-1020): the
two guards raised before the try block, then preprocessing, generation,
saving, and the existence check of the primary OBJ; every failure inside
the try block is wrapped as "3D conversion failed: ...". -/
def Local2DTo3DConverter.convert (env : EngineEnv) (images : List FsPath)
    (jobOutputDir : FsPath) (fs : FS) : Except String (FsPath × FS) :=
  if env.pipelineLoaded = false then .error "Pipeline not loaded. Call _load_pipeline() first."
  else if images = [] then .error "No images provided for conversion"
  else
    match env.preprocess with
    | .error e => .error ("3D conversion failed: " ++ e)
    | .ok _ =>
      match generate3dMesh env with
      | .error e => .error ("3D conversion failed: " ++ e)
      | .ok meshData =>
        match save_mesh_outputs env meshData jobOutputDir fs with
        | .error e => .error ("3D conversion failed: " ++ e)
        | .ok pfs =>
          if (pfs.2).hasFile pfs.1 then .ok pfs
          else .error "3D conversion failed: Primary OBJ file was not created successfully"

/-- The size of the primary artifact of a successful conversion. -/
def convertSize (env : EngineEnv) (images : List FsPath) (jobOutputDir : FsPath)
    (fs : FS) : Option Nat :=
  match Local2DTo3DConverter.convert env images jobOutputDir fs with
  | .ok pfs => some ((pfs.2).sizeAt pfs.1)
  | .error _ => none

/-- A concrete engine environment in which everything succeeds but the
external save_obj writes a 0-byte file (nothing in the code constrains the
sizes the external writers produce). -/
def envEmptyObj : EngineEnv :=
  { pipelineLoaded := true
    preprocess := .ok ()
    pointCloud := .ok [[FVal.ofInt 1, FVal.ofInt 2, FVal.ofInt 3], [FVal.ofInt 2, FVal.ofInt 3, FVal.ofInt 5]]
    meshFromCloud := .error "unused"
    objSave := .ok 0
    plySave := .ok 0
    stlWrite := none
    outlierMask := mask0 }

/-- A concrete finished job record, for witnesses. -/
def jobW : Job :=
  ⟨JobStatus.finished, 100, ["app", "output", "job-1", "generated_model.obj"],
   ["tmp", "in-job-1"], ["app", "output", "job-1"], none⟩

/-- A concrete one-entry registry, for witnesses. -/
def regW : List (String × Job) := [("job-1", jobW)]

theorem any_filter_imp {α : Type} (f g : α → Bool) (l : List α)
    (h : (l.filter f).any g = true) : l.any g = true := by
  rcases List.any_eq_true.mp h with ⟨x, hx, hg⟩
  exact List.any_eq_true.mpr ⟨x, (List.mem_filter.mp hx).1, hg⟩

theorem hasFile_write_self (fs : FS) (p : FsPath) (n : Nat) :
    (fs.write p n).hasFile p = true := by
  simp [FS.write, FS.hasFile]

theorem hasFile_write_mono (fs : FS) (p q : FsPath) (n : Nat) (h : fs.hasFile p = true) :
    (fs.write q n).hasFile p = true := by
  by_cases hq : canon q = canon p
  · simp [FS.write, FS.hasFile, hq]
  · rcases List.any_eq_true.mp h with ⟨e, he, hg⟩
    have he1 : e.1 = canon p := of_decide_eq_true hg
    refine List.any_eq_true.mpr ⟨e, List.mem_cons_of_mem _ (List.mem_filter.mpr ⟨he, ?_⟩), hg⟩
    exact decide_eq_true (fun hh => hq (he1 ▸ hh).symm)

theorem hasFile_remove_self (fs : FS) (p : FsPath) : (fs.remove p).hasFile p = false := by
  rw [FS.remove, FS.hasFile]
  rw [List.any_eq_false]
  intro e he
  have := (List.mem_filter.mp he).2
  simp only [decide_eq_true_eq] at this
  simp [this]

theorem hasFile_remove_keep_false (fs : FS) (p q : FsPath) (h : fs.hasFile p = false) :
    (fs.remove q).hasFile p = false := by
  cases hh : (fs.remove q).hasFile p with
  | false => rfl
  | true =>
    have : fs.hasFile p = true := any_filter_imp _ _ _ hh
    rw [h] at this
    exact absurd this (by simp)

theorem hasFile_remove_of_ne (fs : FS) (p q : FsPath) (hne : canon p ≠ canon q)
    (h : fs.hasFile p = true) : (fs.remove q).hasFile p = true := by
  rcases List.any_eq_true.mp h with ⟨e, he, hg⟩
  have he1 : e.1 = canon p := of_decide_eq_true hg
  refine List.any_eq_true.mpr ⟨e, List.mem_filter.mpr ⟨he, ?_⟩, hg⟩
  exact decide_eq_true (fun hh => hne (he1 ▸ hh))

theorem foldl_write_keep (l : List UpFile) (fs : FS) (p : FsPath) (h : fs.hasFile p = true) :
    (l.foldl (fun a img => a.write (uploadSavePath img) img.size) fs).hasFile p = true := by
  induction l generalizing fs with
  | nil => exact h
  | cons x xs ih => exact ih _ (hasFile_write_mono _ _ _ _ h)

theorem foldl_write_upload (l : List UpFile) (fs : FS) (img : UpFile) (h : img ∈ l) :
    (l.foldl (fun a img => a.write (uploadSavePath img) img.size) fs).hasFile
      (uploadSavePath img) = true := by
  induction l generalizing fs with
  | nil => cases h
  | cons x xs ih =>
    rcases List.mem_cons.mp h with h1 | h2
    · subst h1
      exact foldl_write_keep xs _ _ (hasFile_write_self _ _ _)
    · exact ih _ h2

theorem foldl_write_pairs_keep (l : List (FsPath × Nat)) (fs : FS) (p : FsPath)
    (h : fs.hasFile p = true) :
    (l.foldl (fun a pr => a.write pr.1 pr.2) fs).hasFile p = true := by
  induction l generalizing fs with
  | nil => exact h
  | cons x xs ih => exact ih _ (hasFile_write_mono _ _ _ _ h)

theorem canon_append_normal (p : FsPath) (s : String) (h1 : s ≠ ".") (h2 : s ≠ "..") :
    canon (p ++ [s]) = (canon p).concat s := by
  simp [canon, List.foldl_append, h1, h2]

theorem canon_upload_take2 (f : String) :
    (canon (uploadFolder ++ [f])).take 2 = ["app", "static"] := by
  by_cases h1 : f = "."
  · subst h1; decide
  · by_cases h2 : f = ".."
    · subst h2; decide
    · rw [canon_append_normal _ f h1 h2]
      have hc : canon uploadFolder = ["app", "static", "uploads"] := by decide
      rw [hc]
      simp [List.concat_eq_append, List.take]

theorem upload_not_under_output (f : String) :
    dirContains outputRoot (canon (uploadFolder ++ [f])) = false := by
  apply decide_eq_false
  intro hx
  have hl : outputRoot.length = 2 := rfl
  rw [hl, canon_upload_take2 f] at hx
  exact absurd hx (by decide)

theorem upload_keeps_uploads (rq : Request) (jobId : String) (conv : ConvOutcome) (fs : FS)
    (img : UpFile) (h : img ∈ rq.getlist "images")
    (hconv : ∀ p written, conv = ConvOutcome.ok p written →
      dirContains outputRoot (canon p) = true) :
    ((upload_jewelry rq jobId conv fs).2).hasFile (uploadSavePath img) = true := by
  have hne : rq.getlist "images" ≠ [] := List.ne_nil_of_mem h
  rw [upload_jewelry, if_neg hne]
  cases conv with
  | err msg =>
    exact foldl_write_upload _ _ _ h
  | ok p written =>
    have hbase : ((((fs.mkdir uploadFolder) |>
        (rq.getlist "images").foldl (fun a img => a.write (uploadSavePath img) img.size)).mkdir
          (outputRoot ++ [jobId])) |>
        written.foldl (fun a pr => a.write pr.1 pr.2)).hasFile (uploadSavePath img) = true :=
      foldl_write_pairs_keep _ _ _ (foldl_write_upload _ _ _ h)
    have hp : dirContains outputRoot (canon p) = true := hconv p written rfl
    have hnep : canon (uploadSavePath img) ≠ canon p := by
      intro heq
      have := upload_not_under_output img.filename
      rw [show canon (uploadFolder ++ [img.filename]) = canon (uploadSavePath img) from rfl, heq, hp] at this
      cases this
    simp only []
    split
    · exact hasFile_remove_of_ne _ _ _ hnep (hasFile_write_mono _ _ _ _ hbase)
    · exact hbase

theorem canon_output_two (jid fn : String) (h1 : isNormalSeg jid = true)
    (h2 : isNormalSeg fn = true) :
    canon (outputRoot ++ [jid] ++ [fn]) = outputRoot ++ [jid] ++ [fn] := by
  rw [isNormalSeg, decide_eq_true_eq] at h1 h2
  rw [canon_append_normal _ fn h2.1 h2.2, canon_append_normal _ jid h1.1 h1.2]
  have hc : canon outputRoot = outputRoot := by decide
  rw [hc]
  simp [List.concat_eq_append]

/-- Claim C1 (amended): for every submission carrying at least one uploaded
file, upload_jewelry performs the conversion synchronously before answering:
when the engine succeeds the request is answered with HTTP 200 (not 202) and
a body containing only model_url (no job_id, no status_url), and when the
engine raises the very same request is answered with HTTP 500 — the response
depends on the conversion outcome, so the endpoint latency includes
inference time. -/
theorem c1_amended (rq : Request) (jobId : String) (p : FsPath)
    (written : List (FsPath × Nat)) (msg : String) (fs : FS)
    (h : rq.getlist "images" ≠ []) :
    (upload_jewelry rq jobId (ConvOutcome.ok p written) fs).1.1 = 200
    ∧ ((upload_jewelry rq jobId (ConvOutcome.ok p written) fs).1.2).lookup "model_url"
        = some ("/output/" ++ jobId ++ "/" ++ p.getLastD "")
    ∧ (upload_jewelry rq jobId (ConvOutcome.err msg) fs).1.1 = 500
    ∧ ((upload_jewelry rq jobId (ConvOutcome.err msg) fs).1.2).lookup "error" = some msg := by
  rw [upload_jewelry, upload_jewelry, if_neg h, if_neg h]
  exact ⟨rfl, rfl, rfl, rfl⟩

/-- Witness for c1_amended at a concrete one-file request. -/
theorem c1_witness :
    rqOne.getlist "images" ≠ []
    ∧ ((upload_jewelry rqOne "job-1" (ConvOutcome.ok ["app", "output", "job-1", "m.obj"] []) FS.empty).1.1 = 200
      ∧ ((upload_jewelry rqOne "job-1" (ConvOutcome.ok ["app", "output", "job-1", "m.obj"] []) FS.empty).1.2).lookup "model_url"
          = some "/output/job-1/m.obj"
      ∧ (upload_jewelry rqOne "job-1" (ConvOutcome.err "boom") FS.empty).1.1 = 500
      ∧ ((upload_jewelry rqOne "job-1" (ConvOutcome.err "boom") FS.empty).1.2).lookup "error" = some "boom") :=
  ⟨by decide, c1_amended rqOne "job-1" ["app", "output", "job-1", "m.obj"] [] "boom" FS.empty (by decide)⟩

/-- Claim C1 as stated is false on the code: a valid one-file submission is
answered with status 200, the body has no job_id and no status_url fields,
and the response of the same request changes to 500 when the engine fails,
so the endpoint does wait for the conversion. -/
theorem c1_counterexample :
    (upload_jewelry rqOne "job-1" (ConvOutcome.ok ["app", "output", "job-1", "m.obj"] []) FS.empty).1.1 = 200
    ∧ (upload_jewelry rqOne "job-1" (ConvOutcome.ok ["app", "output", "job-1", "m.obj"] []) FS.empty).1.1 ≠ 202
    ∧ ((upload_jewelry rqOne "job-1" (ConvOutcome.ok ["app", "output", "job-1", "m.obj"] []) FS.empty).1.2).lookup "job_id" = none
    ∧ ((upload_jewelry rqOne "job-1" (ConvOutcome.ok ["app", "output", "job-1", "m.obj"] []) FS.empty).1.2).lookup "status_url" = none
    ∧ (upload_jewelry rqOne "job-1" (ConvOutcome.err "engine failure") FS.empty).1.1 = 500 := by
  decide

/-- Claim C2 (amended): the /api/convert endpoint removes its temporary
input file on every exit path; the upload_jewelry endpoint, however, saves
the uploaded inputs into the shared static/uploads directory and never
deletes them — they are still on disk when handling completes, both when
the conversion succeeds and when it raises. -/
theorem c2_amended :
    (∀ (rq : Request) (modelId : String) (tempPath : FsPath) (env : ApiEnv) (fs : FS),
      rq.files ≠ [] → rq.getlist "images" ≠ [] →
      ((convert_2d_to_3d rq modelId tempPath env fs).2).hasFile tempPath = false)
    ∧ (∀ (rq : Request) (jobId : String) (p : FsPath) (written : List (FsPath × Nat)) (fs : FS)
        (img : UpFile), img ∈ rq.getlist "images" →
        dirContains outputRoot (canon p) = true →
        ((upload_jewelry rq jobId (ConvOutcome.ok p written) fs).2).hasFile (uploadSavePath img) = true)
    ∧ (∀ (rq : Request) (jobId msg : String) (fs : FS) (img : UpFile),
        img ∈ rq.getlist "images" →
        ((upload_jewelry rq jobId (ConvOutcome.err msg) fs).2).hasFile (uploadSavePath img) = true) := by
  refine ⟨?_, ?_, ?_⟩
  · intro rq modelId tempPath env fs h1 h2
    rw [convert_2d_to_3d, if_neg (not_or.mpr ⟨h1, h2⟩), if_neg h2]
    obtain ⟨cl, mo, ex⟩ := env
    cases cl
    · rw [if_pos rfl]
      exact hasFile_remove_self _ _
    · rw [if_neg (by simp)]
      cases mo
      · exact hasFile_remove_keep_false _ _ _ (hasFile_remove_keep_false _ _ _
          (hasFile_remove_keep_false _ _ _ (hasFile_remove_self _ _)))
      · exact hasFile_remove_self _ _
      · simp only []
        split
        · exact hasFile_remove_self _ _
        · exact hasFile_remove_self _ _
  · intro rq jobId p written fs img h hp
    exact upload_keeps_uploads rq jobId _ fs img h (by intro q w hq; cases hq; exact hp)
  · intro rq jobId msg fs img h
    exact upload_keeps_uploads rq jobId _ fs img h (by intro q w hq; cases hq)

/-- Witness for c2_amended at concrete inputs. -/
theorem c2_witness :
    rqOne.files ≠ [] ∧ rqOne.getlist "images" ≠ []
    ∧ ((convert_2d_to_3d rqOne "mid" ["tmp", "t.png"] ⟨true, MeshOutcome.okMesh, fun _ => some 3⟩ FS.empty).2).hasFile ["tmp", "t.png"] = false
    ∧ (⟨"ring.png", 4⟩ : UpFile) ∈ rqOne.getlist "images"
    ∧ ((upload_jewelry rqOne "job-1" (ConvOutcome.err "boom") FS.empty).2).hasFile (uploadSavePath ⟨"ring.png", 4⟩) = true :=
  ⟨by decide, by decide,
   c2_amended.1 rqOne "mid" ["tmp", "t.png"] ⟨true, MeshOutcome.okMesh, fun _ => some 3⟩ FS.empty (by decide) (by decide),
   by decide,
   c2_amended.2.2 rqOne "job-1" "boom" FS.empty ⟨"ring.png", 4⟩ (by decide)⟩

/-- Claim C2 as stated is false on the code: a submission whose conversion
succeeds (the job reaches its terminal success state and the handler
returns) leaves the uploaded input file on disk — the directory holding the
job's uploaded inputs is never deleted. -/
theorem c2_counterexample :
    (upload_jewelry rqOne "job-1"
       (ConvOutcome.ok ["app", "output", "job-1", "m.obj"] [(["app", "output", "job-1", "m.obj"], 9)])
       FS.empty).1.1 = 200
    ∧ ((upload_jewelry rqOne "job-1"
       (ConvOutcome.ok ["app", "output", "job-1", "m.obj"] [(["app", "output", "job-1", "m.obj"], 9)])
       FS.empty).2).hasFile (uploadFolder ++ ["ring.png"]) = true := by
  decide

/-- Claim C3 (amended): the artifact route answers 404 whenever the naively
joined path does not exist, and when job_id and filename are ordinary
segments the served file is exactly outputRoot/job_id/filename; but no
canonicalization check is performed, so a job_id of ".." serves files
outside the output tree (see c3_counterexample). -/
theorem c3_amended (jid fn : String) (fs : FS) :
    (fs.hasFile (outputRoot ++ [jid] ++ [fn]) = false →
      serve_output_model jid fn fs = (404, none))
    ∧ (isNormalSeg jid = true → isNormalSeg fn = true →
        ∀ p, (serve_output_model jid fn fs).2 = some p →
          p = outputRoot ++ [jid] ++ [fn]
          ∧ dirContains (outputRoot ++ [jid]) p = true
          ∧ dirContains outputRoot p = true) := by
  constructor
  · intro h
    have h2 : fs.hasFile (outputRoot ++ [jid, fn]) = false := by simpa using h
    rw [serve_output_model, if_neg (by simp [h2])]
  · intro hj hf p hp
    rw [serve_output_model] at hp
    by_cases hex : fs.hasFile (outputRoot ++ [jid] ++ [fn]) = true
    · rw [if_pos hex] at hp
      have hfn : fn ≠ ".." := by
        rw [isNormalSeg, decide_eq_true_eq] at hf
        exact hf.2
      rw [if_neg hfn] at hp
      have hpc : p = canon (outputRoot ++ [jid] ++ [fn]) := (Option.some.inj hp).symm
      rw [hpc, canon_output_two jid fn hj hf]
      refine ⟨rfl, ?_, ?_⟩
      · simp [dirContains, outputRoot, cwd, List.take]
      · simp [dirContains, outputRoot, cwd, List.take]
    · rw [if_neg hex] at hp
      cases hp

/-- Witness for c3_amended: 404 on an empty filesystem, and containment of
the served path for ordinary segments. -/
theorem c3_witness :
    serve_output_model "job-1" "model.obj" FS.empty = (404, none)
    ∧ ((outputRoot ++ ["job-1"] ++ ["model.obj"] : FsPath) = outputRoot ++ ["job-1"] ++ ["model.obj"]
      ∧ dirContains (outputRoot ++ ["job-1"]) (outputRoot ++ ["job-1"] ++ ["model.obj"]) = true
      ∧ dirContains outputRoot (outputRoot ++ ["job-1"] ++ ["model.obj"]) = true) :=
  ⟨(c3_amended "job-1" "model.obj" FS.empty).1 (by decide),
   (c3_amended "job-1" "model.obj" fsC3).2 (by decide) (by decide)
     (outputRoot ++ ["job-1"] ++ ["model.obj"]) (by decide)⟩

/-- Claim C3 as stated is false on the code: with job_id = ".." the route
serves a file whose canonical path lies outside the output tree entirely —
the naive join performs no canonicalization check. -/
theorem c3_counterexample :
    serve_output_model ".." "secret.txt" fsSecret = (200, some ["app", "secret.txt"])
    ∧ dirContains outputRoot ["app", "secret.txt"] = false
    ∧ dirContains (outputRoot ++ [".."]) ["app", "secret.txt"] = false := by
  decide

/-- Claim C4: a submission without at least one file under the images field
is answered with HTTP 400 by both submission endpoints, and the filesystem
is returned untouched: no upload is saved, no temporary file is created, no
output directory is made (and the code keeps no job records at all). -/
theorem c4_theorem (rq : Request) (fs : FS) (jobId : String) (conv : ConvOutcome)
    (modelId : String) (tempPath : FsPath) (env : ApiEnv)
    (h : rq.getlist "images" = []) :
    upload_jewelry rq jobId conv fs = ((400, [("error", "No images uploaded")]), fs)
    ∧ convert_2d_to_3d rq modelId tempPath env fs
        = ((400, [("error", "Missing images in request")]), fs) := by
  constructor
  · rw [upload_jewelry, if_pos h]
  · rw [convert_2d_to_3d, if_pos (Or.inr h)]

/-- Witness for c4_theorem at a concrete file-less request. -/
theorem c4_witness :
    rqEmpty.getlist "images" = []
    ∧ (upload_jewelry rqEmpty "job-1" (ConvOutcome.err "x") FS.empty
        = ((400, [("error", "No images uploaded")]), FS.empty)
      ∧ convert_2d_to_3d rqEmpty "mid" ["tmp", "t.png"] ⟨false, MeshOutcome.noneMesh, fun _ => none⟩ FS.empty
        = ((400, [("error", "Missing images in request")]), FS.empty)) :=
  ⟨by decide, c4_theorem rqEmpty FS.empty "job-1" (ConvOutcome.err "x") "mid" ["tmp", "t.png"]
    ⟨false, MeshOutcome.noneMesh, fun _ => none⟩ (by decide)⟩

/-- Claim C5 (amended): when the conversion raises, the error message
exposed to the client is the raised exception's text passed through
verbatim — in the error field of upload_jewelry and in the details field of
/api/convert.  No sanitization occurs, so absolute filesystem paths inside
exception messages reach the client (see c5_counterexample). -/
theorem c5_amended (rq : Request) (jobId msg modelId : String) (fs : FS) (tempPath : FsPath)
    (h1 : rq.getlist "images" ≠ []) (h2 : rq.files ≠ []) :
    (upload_jewelry rq jobId (ConvOutcome.err msg) fs).1.2 = [("error", msg)]
    ∧ ((convert_2d_to_3d rq modelId tempPath ⟨true, MeshOutcome.raises msg, fun _ => none⟩ fs).1.2).lookup "details"
        = some msg := by
  constructor
  · rw [upload_jewelry, if_neg h1]
  · rw [convert_2d_to_3d, if_neg (not_or.mpr ⟨h2, h1⟩), if_neg h1]
    rfl

/-- Witness for c5_amended at a concrete request and message. -/
theorem c5_witness :
    rqOne.getlist "images" ≠ [] ∧ rqOne.files ≠ []
    ∧ ((upload_jewelry rqOne "job-1" (ConvOutcome.err "boom") FS.empty).1.2 = [("error", "boom")]
      ∧ ((convert_2d_to_3d rqOne "mid" ["tmp", "t.png"] ⟨true, MeshOutcome.raises "boom", fun _ => none⟩ FS.empty).1.2).lookup "details"
          = some "boom") :=
  ⟨by decide, by decide,
   c5_amended rqOne "job-1" "boom" "mid" FS.empty ["tmp", "t.png"] (by decide) (by decide)⟩

/-- Claim C5 as stated is false on the code: the reachable ImportError
message of local_2d_to_3d.py line 39, which embeds absolute filesystem
paths, is returned to the client verbatim in the error field. -/
theorem c5_counterexample :
    (upload_jewelry rqOne "job-1" (ConvOutcome.err leakMsg) FS.empty).1
      = (500, [("error", leakMsg)])
    ∧ containsAbsPath leakMsg = true := by
  decide

/-- Claim C8 (amended): output directories of distinct jobs are disjoint
subtrees (they are keyed by the job id), but the uploaded inputs are not
job-scoped: every submission saves into the single shared static/uploads
directory, at a path independent of the job id and outside every job's
output directory, so two submissions carrying the same filename write the
same input path (see c8_counterexample). -/
theorem c8_amended :
    (∀ (id1 id2 : String) (p : FsPath), id1 ≠ id2 →
      ¬(dirContains (outputRoot ++ [id1]) p = true ∧ dirContains (outputRoot ++ [id2]) p = true))
    ∧ (∀ (rq : Request) (jobId : String) (conv : ConvOutcome) (fs : FS) (img : UpFile),
        img ∈ rq.getlist "images" →
        (∀ q written, conv = ConvOutcome.ok q written → dirContains outputRoot (canon q) = true) →
        ((upload_jewelry rq jobId conv fs).2).hasFile (uploadSavePath img) = true
        ∧ dirContains (outputRoot ++ [jobId]) (canon (uploadSavePath img)) = false) := by
  constructor
  · rintro id1 id2 p hne ⟨ha, hb⟩
    rw [dirContains, decide_eq_true_eq] at ha hb
    have hl : (outputRoot ++ [id1]).length = (outputRoot ++ [id2]).length := by
      simp [outputRoot, cwd]
    rw [← hl] at hb
    rw [ha] at hb
    simp [outputRoot, cwd] at hb
    exact hne hb
  · intro rq jobId conv fs img h hconv
    refine ⟨upload_keeps_uploads rq jobId conv fs img h hconv, ?_⟩
    apply decide_eq_false
    intro hx
    have hl : (outputRoot ++ [jobId]).length = 3 := by simp [outputRoot, cwd]
    rw [hl] at hx
    have h3 : ((canon (uploadSavePath img)).take 3).take 2 = ((outputRoot ++ [jobId]) : FsPath).take 2 := by
      rw [hx]
    rw [List.take_take] at h3
    have h2 : (canon (uploadSavePath img)).take 2 = ["app", "static"] :=
      canon_upload_take2 img.filename
    rw [show (min 2 3) = 2 from rfl, h2] at h3
    simp [outputRoot, cwd, List.take] at h3

/-- Witness for c8_amended at concrete job ids and a concrete request. -/
theorem c8_witness :
    (("job-a" : String) ≠ "job-b")
    ∧ (¬(dirContains (outputRoot ++ ["job-a"]) ["app", "output", "job-a", "m.obj"] = true
        ∧ dirContains (outputRoot ++ ["job-b"]) ["app", "output", "job-a", "m.obj"] = true))
    ∧ ((upload_jewelry rqOne "job-1" (ConvOutcome.ok ["app", "output", "job-1", "m.obj"] []) FS.empty).2).hasFile (uploadSavePath ⟨"ring.png", 4⟩) = true
    ∧ dirContains (outputRoot ++ ["job-1"]) (canon (uploadSavePath ⟨"ring.png", 4⟩)) = false :=
  ⟨by decide,
   c8_amended.1 "job-a" "job-b" ["app", "output", "job-a", "m.obj"] (by decide),
   (c8_amended.2 rqOne "job-1" (ConvOutcome.ok ["app", "output", "job-1", "m.obj"] []) FS.empty
      ⟨"ring.png", 4⟩ (by decide) (by intro q w hq; cases hq; decide)).1,
   (c8_amended.2 rqOne "job-1" (ConvOutcome.ok ["app", "output", "job-1", "m.obj"] []) FS.empty
      ⟨"ring.png", 4⟩ (by decide) (by intro q w hq; cases hq; decide)).2⟩

/-- Claim C8 as stated is false on the code: two distinct jobs submitted
with the same client filename both persist their uploaded input to the very
same shared path static/uploads/ring.png — uploads are not stored in
freshly created job-scoped directories. -/
theorem c8_counterexample :
    ((upload_jewelry rqOne "job-a" (ConvOutcome.ok ["app", "output", "job-a", "m.obj"] []) FS.empty).2).hasFile (uploadFolder ++ ["ring.png"]) = true
    ∧ ((upload_jewelry rqOne "job-b" (ConvOutcome.ok ["app", "output", "job-b", "m.obj"] []) FS.empty).2).hasFile (uploadFolder ++ ["ring.png"]) = true
    ∧ (("job-a" : String) ≠ "job-b") := by
  decide

theorem step_rank (a b : JobStatus) (h : allowedTransition a b = true) :
    a.rank ≤ b.rank := by
  cases a <;> cases b <;> simp_all [allowedTransition, JobStatus.rank]

theorem terminal_absorbs (a b : JobStatus) (h1 : a.isTerminal = true)
    (h2 : allowedTransition a b = true) : False := by
  cases a <;> cases b <;> simp_all [allowedTransition, JobStatus.isTerminal]

/-- Claim C6 (spec-modelled; no status route exists under src/): the Status
Endpoint answers 404 for an unknown job id; for a known id it answers 200
with exactly the projection (job_id, status, progress, model_url, error),
where model_url is none unless the job is finished, error is none unless
the job is failed, and the projection is unchanged under any values of the
internal path fields artifactPath, inputTempDir and outputDir — no internal
filesystem path is included. -/
theorem c6_theorem (reg : List (String × Job)) (jid : String) :
    (reg.lookup jid = none → statusEndpoint reg jid = (404, none))
    ∧ (∀ j, reg.lookup jid = some j →
        statusEndpoint reg jid = (200, some (statusProjection jid j))
        ∧ (j.status ≠ JobStatus.finished → (statusProjection jid j).model_url = none)
        ∧ (j.status ≠ JobStatus.failed → (statusProjection jid j).error = none)
        ∧ (∀ ap itd od, statusProjection jid
            { j with artifactPath := ap, inputTempDir := itd, outputDir := od }
              = statusProjection jid j)) := by
  constructor
  · intro h
    rw [statusEndpoint, h]
  · intro j h
    refine ⟨by rw [statusEndpoint, h], ?_, ?_, fun ap itd od => rfl⟩
    · intro hnf
      simp [statusProjection, hnf]
    · intro hnf
      simp [statusProjection, hnf]

/-- Witness for c6_theorem on a concrete registry. -/
theorem c6_witness :
    regW.lookup "nope" = none
    ∧ statusEndpoint regW "nope" = (404, none)
    ∧ regW.lookup "job-1" = some jobW
    ∧ (statusEndpoint regW "job-1" = (200, some (statusProjection "job-1" jobW))
      ∧ (jobW.status ≠ JobStatus.finished → (statusProjection "job-1" jobW).model_url = none)
      ∧ (jobW.status ≠ JobStatus.failed → (statusProjection "job-1" jobW).error = none)
      ∧ (∀ ap itd od, statusProjection "job-1"
          { jobW with artifactPath := ap, inputTempDir := itd, outputDir := od }
            = statusProjection "job-1" jobW)) :=
  ⟨by decide, (c6_theorem regW "nope").1 (by decide), by decide,
   (c6_theorem regW "job-1").2 jobW (by decide)⟩

/-- Claim C7 (spec-modelled; no job state machine exists under src/): along
any chain of allowed transitions the observed status rank never decreases
in the order queued < running < {finished, failed}, and from a terminal
status no chain reaches any other status. -/
theorem c7_theorem (s t : JobStatus) (h : Reachable s t) :
    s.rank ≤ t.rank ∧ (s.isTerminal = true → t = s) := by
  induction h with
  | refl => exact ⟨le_rfl, fun _ => rfl⟩
  | tail hsu step ih =>
    constructor
    · exact le_trans ih.1 (step_rank _ _ step)
    · intro hterm
      rw [ih.2 hterm] at step
      exact (terminal_absorbs _ _ hterm step).elim

/-- Witness for c7_theorem along the concrete chain queued to finished. -/
theorem c7_witness :
    Reachable JobStatus.queued JobStatus.finished
    ∧ (JobStatus.queued.rank ≤ JobStatus.finished.rank
      ∧ (JobStatus.queued.isTerminal = true → JobStatus.finished = JobStatus.queued)) := by
  have h1 : allowedTransition JobStatus.queued JobStatus.running = true := by decide
  have h2 : allowedTransition JobStatus.running JobStatus.finished = true := by decide
  have hreach : Reachable JobStatus.queued JobStatus.finished :=
    Relation.ReflTransGen.head h1 (Relation.ReflTransGen.single h2)
  exact ⟨hreach, c7_theorem _ _ hreach⟩

theorem string_append_ne_empty (a b : String) (h : a ≠ "") : a ++ b ≠ "" := by
  intro hab
  apply h
  have hd := congrArg String.length hab
  rw [String.length_append, show ("" : String).length = 0 from rfl] at hd
  have ha : a.length = 0 := by omega
  exact String.ext (List.length_eq_zero.mp ha)

theorem save_outputs_ok_shape (env : EngineEnv) (meshData : List (List FVal))
    (dir : FsPath) (fs : FS) (pfs : FsPath × FS)
    (h : save_mesh_outputs env meshData dir fs = .ok pfs) :
    pfs.1 = dir ++ ["generated_model.obj"] := by
  rw [save_mesh_outputs] at h
  cases hev : ensureValidMesh env.outlierMask meshData none with
  | error e => rw [hev] at h; cases h
  | ok vf0 =>
    rw [hev] at h
    cases ho : env.objSave with
    | error e => rw [ho] at h; cases h
    | ok n1 =>
      rw [ho] at h
      cases hp : env.plySave with
      | error e => rw [hp] at h; cases h
      | ok n2 =>
        rw [hp] at h
        cases h
        rfl

/-- Claim C9 (amended): every call of the Conversion Engine's convert
either fails with a nonempty diagnostic message, or returns the path
jobOutputDir/generated_model.obj of a primary artifact that was written
under jobOutputDir and exists in the resulting filesystem.  The code checks
existence of the primary artifact but never its size, so non-emptiness is
not part of the contract (see c9_counterexample). -/
theorem c9_amended (env : EngineEnv) (images : List FsPath) (dir : FsPath) (fs : FS) :
    (∃ msg, Local2DTo3DConverter.convert env images dir fs = .error msg ∧ msg ≠ "")
    ∨ (∃ fs2, Local2DTo3DConverter.convert env images dir fs
          = .ok (dir ++ ["generated_model.obj"], fs2)
        ∧ fs2.hasFile (dir ++ ["generated_model.obj"]) = true) := by
  rw [Local2DTo3DConverter.convert]
  split
  · exact Or.inl ⟨_, rfl, by decide⟩
  · split
    · exact Or.inl ⟨_, rfl, by decide⟩
    · split
      · exact Or.inl ⟨_, rfl, string_append_ne_empty _ _ (by decide)⟩
      · split
        · exact Or.inl ⟨_, rfl, string_append_ne_empty _ _ (by decide)⟩
        · rename_i meshData heq0
          split
          · exact Or.inl ⟨_, rfl, string_append_ne_empty _ _ (by decide)⟩
          · rename_i pfs heq
            have hshape := save_outputs_ok_shape env meshData dir fs pfs heq
            by_cases hh : (pfs.2).hasFile pfs.1 = true
            · rw [if_pos hh]
              exact Or.inr ⟨pfs.2, by rw [← hshape], by rw [← hshape]; exact hh⟩
            · rw [if_neg hh]
              exact Or.inl ⟨_, rfl, by decide⟩

/-- Claim C9 as stated is false on the code: convert checks only that the
primary OBJ file exists, never that it is non-empty; in an environment
where the external save_obj writes 0 bytes (nothing in the code constrains
the external writers), convert succeeds and returns a path to an existing
empty artifact - an outcome the claim excludes. -/
theorem c9_counterexample :
    convertSize envEmptyObj [["tmp", "img.png"]] ["app", "output", "job-1"] FS.empty
      = some 0 := by
  decide

theorem fin_add (a b : FVal) (ha : a.isFinite = true) (hb : b.isFinite = true) :
    (a.add b).isFinite = true := by
  cases a <;> cases b <;> simp_all [FVal.add, FVal.isFinite]

theorem fin_neg (a : FVal) (ha : a.isFinite = true) : a.neg.isFinite = true := by
  cases a <;> simp_all [FVal.neg, FVal.isFinite]

theorem fin_sub (a b : FVal) (ha : a.isFinite = true) (hb : b.isFinite = true) :
    (a.sub b).isFinite = true := by
  exact fin_add _ _ ha (fin_neg _ hb)

theorem fin_mul (a b : FVal) (ha : a.isFinite = true) (hb : b.isFinite = true) :
    (a.mul b).isFinite = true := by
  cases a <;> cases b <;> simp_all [FVal.mul, FVal.isFinite]

theorem fin_div (a b : FVal) (ha : a.isFinite = true) (hb : b.isFinite = true)
    (hz : b.isZeroF = false) : (a.div b).isFinite = true := by
  cases a <;> cases b <;> simp_all [FVal.div, FVal.isFinite, FVal.isZeroF]

theorem fmax_fin (a b : FVal) (ha : a.isFinite = true) (hb : b.isFinite = true) :
    (FVal.fmax a b).isFinite = true := by
  rcases a with qa | _ | _ | _ <;> try simp_all [FVal.isFinite]
  rcases b with qb | _ | _ | _ <;> try simp_all [FVal.isFinite]
  rw [FVal.fmax, if_neg (by simp [FVal.isNan])]
  by_cases hblt : (FVal.fin qa).blt (FVal.fin qb) = true
  · rw [if_pos hblt]
  · rw [if_neg hblt]

theorem fmin_fin (a b : FVal) (ha : a.isFinite = true) (hb : b.isFinite = true) :
    (FVal.fmin a b).isFinite = true := by
  rcases a with qa | _ | _ | _ <;> try simp_all [FVal.isFinite]
  rcases b with qb | _ | _ | _ <;> try simp_all [FVal.isFinite]
  rw [FVal.fmin, if_neg (by simp [FVal.isNan])]
  by_cases hblt : (FVal.fin qb).blt (FVal.fin qa) = true
  · rw [if_pos hblt]
  · rw [if_neg hblt]

theorem foldl_fmax_fin (l : List FVal) (a : FVal) (ha : a.isFinite = true)
    (hl : ∀ x ∈ l, x.isFinite = true) : (l.foldl FVal.fmax a).isFinite = true := by
  induction l generalizing a with
  | nil => exact ha
  | cons x xs ih =>
    exact ih _ (fmax_fin _ _ ha (hl x (by simp))) (fun y hy => hl y (by simp [hy]))

theorem foldl_fmin_fin (l : List FVal) (a : FVal) (ha : a.isFinite = true)
    (hl : ∀ x ∈ l, x.isFinite = true) : (l.foldl FVal.fmin a).isFinite = true := by
  induction l generalizing a with
  | nil => exact ha
  | cons x xs ih =>
    exact ih _ (fmin_fin _ _ ha (hl x (by simp))) (fun y hy => hl y (by simp [hy]))

theorem vmax_fin (l : List FVal) (hne : l ≠ []) (hl : ∀ x ∈ l, x.isFinite = true) :
    (vmax l).isFinite = true := by
  cases l with
  | nil => exact absurd rfl hne
  | cons x xs =>
    exact foldl_fmax_fin xs x (hl x (by simp)) (fun y hy => hl y (by simp [hy]))

theorem vmin_fin (l : List FVal) (hne : l ≠ []) (hl : ∀ x ∈ l, x.isFinite = true) :
    (vmin l).isFinite = true := by
  cases l with
  | nil => exact absurd rfl hne
  | cons x xs =>
    exact foldl_fmin_fin xs x (hl x (by simp)) (fun y hy => hl y (by simp [hy]))

theorem vsum_fin (l : List FVal) (hl : ∀ x ∈ l, x.isFinite = true) :
    (vsum l).isFinite = true := by
  rw [vsum]
  have : ∀ a : FVal, a.isFinite = true → (l.foldl FVal.add a).isFinite = true := by
    induction l with
    | nil => exact fun a ha => ha
    | cons x xs ih =>
      intro a ha
      exact ih (fun y hy => hl y (by simp [hy])) _ (fin_add _ _ ha (hl x (by simp)))
  exact this _ rfl

theorem vmean_fin (l : List FVal) (hne : l ≠ []) (hl : ∀ x ∈ l, x.isFinite = true) :
    (vmean l).isFinite = true := by
  rw [vmean]
  apply fin_div (vsum l) (FVal.ofInt (l.length : Int)) (vsum_fin l hl) rfl
  have hlen : l.length ≠ 0 := fun hh => hne (List.length_eq_zero.mp hh)
  show decide ((l.length : Int) = 0) = false
  simp only [decide_eq_false_iff_not]
  omega

theorem applyMask_subset {α : Type} (m : List Bool) (xs : List α) (x : α)
    (h : x ∈ applyMask m xs) : x ∈ xs := by
  rw [applyMask] at h
  rcases List.mem_filterMap.mp h with ⟨⟨a, b⟩, hab, hx⟩
  by_cases hb : b = true
  · rw [hb, if_pos rfl] at hx
    cases hx
    exact (List.of_mem_zip hab).1
  · rw [if_neg hb] at hx
    cases hx

theorem dropInvalidRows_mem (vs : List (List FVal)) (r : List FVal)
    (h : r ∈ dropInvalidRows vs) : r ∈ vs := by
  rw [dropInvalidRows] at h
  split at h
  · exact (List.mem_filter.mp h).1
  · exact h

theorem dropInvalidRows_finite (vs : List (List FVal)) (r : List FVal)
    (h : r ∈ dropInvalidRows vs) : ∀ e ∈ r, e.isFinite = true := by
  rw [dropInvalidRows] at h
  split at h
  · intro e he
    have h2 := (List.mem_filter.mp h).2
    simp only [Bool.not_eq_true', List.any_eq_false] at h2
    have h3 := h2 e he
    cases e <;> simp_all [FVal.isNan, FVal.isInf, FVal.isFinite]
  · rename_i hna
    intro e he
    have h4 : r.any (fun e => e.isNan || e.isInf) = false := by
      cases hxx : r.any (fun e => e.isNan || e.isInf) with
      | false => rfl
      | true => exact absurd (List.any_eq_true.mpr ⟨r, h, hxx⟩) hna
    have h5 := List.any_eq_false.mp h4 e he
    cases e <;> simp_all [FVal.isNan, FVal.isInf, FVal.isFinite]

theorem cleanMeshData_sub (mask : List (List FVal) → List Bool) (v : List (List FVal))
    (f : Option (List (List Int))) (cv : List (List FVal)) (f0 : Option (List (List Int)))
    (h : cleanMeshData mask v f = .ok (cv, f0)) :
    ∀ r ∈ cv, r ∈ dropInvalidRows v := by
  simp only [cleanMeshData] at h
  split at h
  all_goals try split at h
  all_goals try split at h
  all_goals try split at h
  all_goals try split at h
  all_goals try (exfalso; exact Except.noConfusion h)
  all_goals
    (intro r hr
     have hv := congrArg Prod.fst (Except.ok.inj h)
     dsimp only at hv
     rw [← hv] at hr
     first
       | exact hr
       | exact applyMask_subset _ _ _ hr)

theorem ensureValidMesh_ok_eq (mask : List (List FVal) → List Bool) (v : List (List FVal))
    (f : Option (List (List Int))) (cv : List (List FVal)) (f0 : Option (List (List Int)))
    (v2 : List (List FVal)) (f2 : Option (List (List Int)))
    (hclean : cleanMeshData mask v f = .ok (cv, f0))
    (hok : ensureValidMesh mask v f = .ok (v2, f2)) :
    cv.length ≠ 0 ∧ ¬((cv.headD []).length < 3)
    ∧ v2 = centerVerts (scaleVerts (evmTrunc cv)) ∧ f2 = fixFaces (evmTrunc cv).length f0 := by
  simp only [ensureValidMesh, hclean] at hok
  by_cases h0 : cv.length = 0
  · rw [if_pos h0] at hok
    exact absurd hok (by simp)
  · rw [if_neg h0] at hok
    by_cases h3 : (cv.headD []).length < 3
    · rw [if_pos h3] at hok
      exact absurd hok (by simp)
    · rw [if_neg h3] at hok
      have hp := Except.ok.inj hok
      have hv := congrArg Prod.fst hp
      have hf := congrArg Prod.snd hp
      dsimp only at hv hf
      exact ⟨h0, h3, hv.symm, hf.symm⟩

theorem centerVerts_length (vs : List (List FVal)) : (centerVerts vs).length = vs.length := by
  simp [centerVerts]

theorem scaleVerts_length (vs : List (List FVal)) : (scaleVerts vs).length = vs.length := by
  rw [scaleVerts]
  split <;> simp

theorem evmTrunc_length (vs : List (List FVal)) : (evmTrunc vs).length = vs.length := by
  rw [evmTrunc]
  split <;> simp

theorem colwise_length (g : List FVal → FVal) (vs : List (List FVal)) :
    (colwise g vs).length = 3 := by
  simp [colwise]

theorem colVals_length (vs : List (List FVal)) (i : Nat) :
    (colVals vs i).length = vs.length := by
  simp [colVals]

theorem evmTrunc_rows (vs : List (List FVal)) (w : Nat) (hw : 3 ≤ w)
    (hu : ∀ r ∈ vs, r.length = w) (hne : vs ≠ []) :
    ∀ r ∈ evmTrunc vs, r.length = 3 := by
  rw [evmTrunc]
  split
  · intro r hr
    rcases List.mem_map.mp hr with ⟨r0, hr0, rfl⟩
    rw [List.length_take, hu r0 hr0]
    omega
  · rename_i hle
    intro r hr
    rw [hu r hr]
    cases vs with
    | nil => exact absurd rfl hne
    | cons a as =>
      have ha : (a :: as).headD [] = a := rfl
      rw [ha] at hle
      have := hu a (by simp)
      omega

theorem evmTrunc_fin (vs : List (List FVal))
    (hfin : ∀ r ∈ vs, ∀ e ∈ r, e.isFinite = true) :
    ∀ r ∈ evmTrunc vs, ∀ e ∈ r, e.isFinite = true := by
  rw [evmTrunc]
  split
  · intro r hr e he
    rcases List.mem_map.mp hr with ⟨r0, hr0, rfl⟩
    exact hfin r0 hr0 e (List.take_subset _ _ he)
  · exact hfin

theorem mem_zipWith_sub (l1 l2 : List FVal) (x : FVal)
    (hx : x ∈ List.zipWith FVal.sub l1 l2) :
    ∃ a ∈ l1, ∃ b ∈ l2, x = FVal.sub a b := by
  induction l1 generalizing l2 with
  | nil => simp at hx
  | cons a as ih =>
    cases l2 with
    | nil => simp at hx
    | cons b bs =>
      rw [List.zipWith_cons_cons] at hx
      rcases List.mem_cons.mp hx with h | h
      · exact ⟨a, by simp, b, by simp, h⟩
      · rcases ih bs h with ⟨a2, ha2, b2, hb2, rfl⟩
        exact ⟨a2, by simp [ha2], b2, by simp [hb2], rfl⟩

theorem colVals_fin (vs : List (List FVal))
    (hfin : ∀ r ∈ vs, ∀ e ∈ r, e.isFinite = true) (i : Nat) :
    ∀ x ∈ colVals vs i, x.isFinite = true := by
  intro x hx
  rcases List.mem_map.mp hx with ⟨r, hr, rfl⟩
  rw [List.getD_eq_getElem?_getD]
  cases hgd : r[i]? with
  | none => rfl
  | some e =>
    have he : e ∈ r := List.getElem?_mem hgd
    simpa using hfin r hr e he

theorem colwise_fin (g : List FVal → FVal) (vs : List (List FVal)) (hne : vs ≠ [])
    (hfin : ∀ r ∈ vs, ∀ e ∈ r, e.isFinite = true)
    (hg : ∀ l : List FVal, l ≠ [] → (∀ x ∈ l, x.isFinite = true) → (g l).isFinite = true) :
    ∀ x ∈ colwise g vs, x.isFinite = true := by
  intro x hx
  rcases List.mem_map.mp hx with ⟨i, hi, rfl⟩
  apply hg
  · intro hh
    have := congrArg List.length hh
    rw [colVals_length] at this
    exact hne (List.length_eq_zero.mp this)
  · exact colVals_fin vs hfin i

theorem maxRangeOf_fin (vs : List (List FVal)) (hne : vs ≠ [])
    (hfin : ∀ r ∈ vs, ∀ e ∈ r, e.isFinite = true) :
    (maxRangeOf vs).isFinite = true := by
  rw [maxRangeOf]
  apply vmax_fin
  · intro hh
    have := congrArg List.length hh
    rw [rangeOf, List.length_zipWith, colwise_length, colwise_length] at this
    simp at this
  · intro x hx
    rw [rangeOf] at hx
    rcases mem_zipWith_sub _ _ _ hx with ⟨a, ha, b, hb, rfl⟩
    exact fin_sub _ _ (colwise_fin vmax vs hne hfin vmax_fin a ha)
      (colwise_fin vmin vs hne hfin vmin_fin b hb)

theorem scaleVerts_fin (vs : List (List FVal)) (hne : vs ≠ [])
    (hfin : ∀ r ∈ vs, ∀ e ∈ r, e.isFinite = true)
    (hz : (maxRangeOf vs).isZeroF = false) :
    ∀ r ∈ scaleVerts vs, ∀ e ∈ r, e.isFinite = true := by
  rw [scaleVerts]
  split
  · intro r hr e he
    rcases List.mem_map.mp hr with ⟨r0, hr0, rfl⟩
    rcases List.mem_map.mp he with ⟨e0, he0, rfl⟩
    apply fin_mul _ _ (hfin r0 hr0 e0 he0)
    exact fin_div (FVal.ofInt 2) (maxRangeOf vs) rfl (maxRangeOf_fin vs hne hfin) hz
  · exact hfin

theorem centerVerts_fin (vs : List (List FVal)) (hne : vs ≠ [])
    (hfin : ∀ r ∈ vs, ∀ e ∈ r, e.isFinite = true) :
    ∀ r ∈ centerVerts vs, ∀ e ∈ r, e.isFinite = true := by
  rw [centerVerts]
  intro r hr e he
  rcases List.mem_map.mp hr with ⟨r0, hr0, rfl⟩
  rcases mem_zipWith_sub _ _ _ he with ⟨a, ha, b, hb, rfl⟩
  apply fin_sub _ _ (hfin r0 hr0 a ha)
  exact colwise_fin vmean vs hne hfin vmean_fin b hb

theorem scaleVerts_rows (vs : List (List FVal)) (h3 : ∀ r ∈ vs, r.length = 3) :
    ∀ r ∈ scaleVerts vs, r.length = 3 := by
  rw [scaleVerts]
  split
  · intro r hr
    rcases List.mem_map.mp hr with ⟨r0, hr0, rfl⟩
    rw [List.length_map]
    exact h3 r0 hr0
  · exact h3

theorem centerVerts_rows (vs : List (List FVal)) (h3 : ∀ r ∈ vs, r.length = 3) :
    ∀ r ∈ centerVerts vs, r.length = 3 := by
  rw [centerVerts]
  intro r hr
  rcases List.mem_map.mp hr with ⟨r0, hr0, rfl⟩
  rw [List.length_zipWith, colwise_length, h3 r0 hr0]
  omega

theorem fixFaces_bound (n : Nat) (f : Option (List (List Int))) :
    ∀ fs ∈ fixFaces n f, ∀ face ∈ fs, ∀ i ∈ face, i < (n : Int) := by
  intro fs hfs face hface i hi
  rcases f with _ | fs0
  · simp [fixFaces] at hfs
  · simp only [fixFaces] at hfs
    have core : ∀ fs1 : List (List Int),
        fs ∈ (if (fs1.any fun fc => fc.any fun j => decide ((n : Int) - 1 < j)) = true then
            (if (List.filter (fun fc => fc.all fun j => decide (j ≤ (n : Int) - 1)) fs1).length = 0
             then none
             else some (List.filter (fun fc => fc.all fun j => decide (j ≤ (n : Int) - 1)) fs1))
          else some fs1) → i < (n : Int) := by
      intro fs1 hmem
      split at hmem
      · split at hmem
        · simp at hmem
        · rw [Option.mem_def, Option.some.injEq] at hmem
          subst hmem
          have hall := (List.mem_filter.mp hface).2
          have h5 := List.all_eq_true.mp hall i hi
          rw [decide_eq_true_eq] at h5
          omega
      · rename_i hna
        rw [Option.mem_def, Option.some.injEq] at hmem
        subst hmem
        have h4 : (face.any fun j => decide ((n : Int) - 1 < j)) = false := by
          cases hxx : (face.any fun j => decide ((n : Int) - 1 < j)) with
          | false => rfl
          | true => exact absurd (List.any_eq_true.mpr ⟨face, hface, hxx⟩) hna
        have h3 := List.any_eq_false.mp h4 i hi
        simp only [decide_eq_true_eq] at h3
        omega
    split at hfs
    · split at hfs
      · exact core (triangulateQuads fs0) hfs
      · exact core fs0 hfs
    · rename_i hlen
      rw [Option.mem_def, Option.some.injEq] at hfs
      subst hfs
      have h0 : fs0 = [] := by
        rw [← List.length_eq_zero]
        omega
      subst h0
      simp at hface

/-- Claim C10 (amended): for every uniform vertex array with at least 3
columns, whenever ensure_valid_mesh returns it returns a (k,3) vertex array
with k at least 1 whose faces, if any, reference only indices strictly
below k; every returned entry is finite provided the coordinate range of
the cleaned, truncated vertices is not zero (when that range is zero the
rescaling step divides 2.0 by 0.0 and multiplies the vertices into nan,
see c10_counterexample); and when cleaning leaves no vertex it raises
ValueError instead of returning. -/
theorem c10_amended (mask : List (List FVal) → List Bool) (v : List (List FVal))
    (f : Option (List (List Int))) (w : Nat)
    (hw : 3 ≤ w) (hu : ∀ r ∈ v, r.length = w) :
    (∀ cv f0 v2 f2, cleanMeshData mask v f = .ok (cv, f0) →
        ensureValidMesh mask v f = .ok (v2, f2) →
        1 ≤ v2.length
        ∧ (∀ r ∈ v2, r.length = 3)
        ∧ (∀ fs2 ∈ f2, ∀ face ∈ fs2, ∀ i ∈ face, i < (v2.length : Int))
        ∧ ((maxRangeOf (evmTrunc cv)).isZeroF = false →
            ∀ r ∈ v2, ∀ e ∈ r, e.isFinite = true))
    ∧ (∀ f0, cleanMeshData mask v f = .ok ([], f0) →
        ensureValidMesh mask v f
          = .error (.valueError "No valid vertices remaining after cleaning")) := by
  constructor
  · intro cv f0 v2 f2 hclean hok
    obtain ⟨h0, h3, hv2, hf2⟩ := ensureValidMesh_ok_eq mask v f cv f0 v2 f2 hclean hok
    have hmem := cleanMeshData_sub mask v f cv f0 hclean
    have hcvne : cv ≠ [] := fun hh => h0 (by rw [hh]; rfl)
    have hcvu : ∀ r ∈ cv, r.length = w :=
      fun r hr => hu r (dropInvalidRows_mem v r (hmem r hr))
    have hfin : ∀ r ∈ cv, ∀ e ∈ r, e.isFinite = true :=
      fun r hr => dropInvalidRows_finite v r (hmem r hr)
    have htvrows : ∀ r ∈ evmTrunc cv, r.length = 3 := evmTrunc_rows cv w hw hcvu hcvne
    have htvfin := evmTrunc_fin cv hfin
    have htvlen : (evmTrunc cv).length = cv.length := evmTrunc_length cv
    have htvne : evmTrunc cv ≠ [] := by
      intro hh
      apply hcvne
      rw [← List.length_eq_zero, ← htvlen, hh]
      rfl
    have hlen2 : v2.length = cv.length := by
      rw [hv2, centerVerts_length, scaleVerts_length, htvlen]
    refine ⟨?_, ?_, ?_, ?_⟩
    · rw [hlen2]
      omega
    · rw [hv2]
      exact centerVerts_rows _ (scaleVerts_rows _ htvrows)
    · intro fs2 hfs2 face hface i hi
      rw [hf2] at hfs2
      have hb := fixFaces_bound (evmTrunc cv).length f0 fs2 hfs2 face hface i hi
      rw [hlen2, ← htvlen]
      exact hb
    · intro hz
      rw [hv2]
      have hstvne : scaleVerts (evmTrunc cv) ≠ [] := by
        intro hh
        apply htvne
        rw [← List.length_eq_zero, ← scaleVerts_length (evmTrunc cv), hh]
        rfl
      exact centerVerts_fin _ hstvne (scaleVerts_fin _ htvne htvfin hz)
  · intro f0 hclean
    rw [ensureValidMesh, hclean]
    rfl

/-- Witness for c10_amended on a concrete two-row array. -/
theorem c10_witness :
    (3 ≤ 3) ∧ (∀ r ∈ vW10, r.length = 3)
    ∧ ((∀ cv f0 v2 f2, cleanMeshData mask0 vW10 none = .ok (cv, f0) →
        ensureValidMesh mask0 vW10 none = .ok (v2, f2) →
        1 ≤ v2.length
        ∧ (∀ r ∈ v2, r.length = 3)
        ∧ (∀ fs2 ∈ f2, ∀ face ∈ fs2, ∀ i ∈ face, i < (v2.length : Int))
        ∧ ((maxRangeOf (evmTrunc cv)).isZeroF = false →
            ∀ r ∈ v2, ∀ e ∈ r, e.isFinite = true))
      ∧ (∀ f0, cleanMeshData mask0 vW10 none = .ok ([], f0) →
          ensureValidMesh mask0 vW10 none
            = .error (.valueError "No valid vertices remaining after cleaning"))) :=
  ⟨by decide, by decide, c10_amended mask0 vW10 none 3 (by decide) (by decide)⟩

/-- Claim C10 as stated is false on the code: the single-vertex array
[[0, 0, 0]] has 3 columns and one row of finite coordinates, yet
ensure_valid_mesh returns vertices whose entries are all nan (not finite):
its coordinate range is 0, so the rescale divides 2.0 by 0.0 giving inf
and multiplies 0.0 by inf giving nan. -/
theorem c10_counterexample :
    ensureValidMesh mask0 [[FVal.ofInt 0, FVal.ofInt 0, FVal.ofInt 0]] none
      = .ok ([[FVal.nan, FVal.nan, FVal.nan]], none)
    ∧ FVal.nan.isFinite = false := by
  decide
